import Mathlib

/-!
# Shallow embedding of the art-auction core (`db_operations.py`)

This file embeds the auction/bidding/wallet core of the repository
(`src/db_operations.py`, with the constant from `src/config.py`) as pure Lean
functions over an explicit database state, and proves properties of those
functions.

Modelling conventions:
* The MySQL tables `users`, `auctions`, `bids`, `notifications` and
  `wallet_transactions` are lists of rows; rows are appended at the end, so
  list order is insertion order (which is also `bid_time` / `created_at`
  order).
* Monetary values (`DECIMAL(10,2)` columns, and the Python floats derived
  from them) are exact multiples of 0.01 and are modelled in integer minor
  units (cents): `Money := Int`.  So `Config.MINIMUM_BID_INCREMENT = 5.00`
  is `500`.  The two-decimal display formatting (Python `:.2f`) is elided:
  result messages are modelled as structured values carrying the exact
  numeric payload of the formatted message.
* `NOW()` / timestamps are an `Int` parameter `now` threaded explicitly.
* Each mutating Python method opens its own connection with
  `autocommit=False` and commits at the end.  `create_notification` opens a
  *separate* connection and commits immediately; this is modelled by applying
  its write to the durable state at the point of its call, independently of
  whether the caller's own transaction later commits.  Where a claim is about
  transactional failure, the caller takes an explicit `commitOk : Bool`
  failure-injection parameter for its final `conn.commit()`.
-/

namespace ArtAuction

/-- Monetary values in integer minor units (cents); see the header comment. -/
abbrev Money := Int

/-- `auctions.status` column: 'active' | 'completed' | 'sold'. -/
inductive AuctionStatus
  | active
  | completed
  | sold
  deriving DecidableEq

/-- `auctions.payment_status` column values ('pending' | 'paid'); the column
itself is nullable, so auction rows carry an `Option PaymentStatus`. -/
inductive PaymentStatus
  | pending
  | paid
  deriving DecidableEq

/-- `notifications.type` column values used by the core. -/
inductive NotifType
  | new_auction
  | outbid
  | won
  deriving DecidableEq

/-- A row of the `users` table (the columns the core reads and writes). -/
structure User where
  user_id : Nat
  wallet_balance : Money
  deriving DecidableEq

/-- A row of the `auctions` table (the columns the core reads and writes).
`create_auction` inserts `current_bid = starting_bid`, so `current_bid` is
modelled as non-null. -/
structure Auction where
  auction_id : Nat
  seller_id : Nat
  title : String
  starting_bid : Money
  current_bid : Money
  status : AuctionStatus
  end_time : Int
  winner_id : Option Nat
  sold_price : Option Money
  payment_status : Option PaymentStatus
  deriving DecidableEq

/-- A row of the `bids` table; list position is insertion (`bid_time`) order. -/
structure Bid where
  auction_id : Nat
  bidder_id : Nat
  bid_amount : Money
  deriving DecidableEq

/-- A row of the `notifications` table. -/
structure Notification where
  user_id : Nat
  message : String
  ntype : NotifType
  deriving DecidableEq

/-- A row of the `wallet_transactions` table. -/
structure TxnRow where
  user_id : Nat
  transaction_type : String
  amount : Money
  balance_after : Money
  description : String
  reference_id : Option Nat
  deriving DecidableEq

/-- The database state: one list of rows per table. -/
structure DBState where
  users : List User
  auctions : List Auction
  bids : List Bid
  notifications : List Notification
  wallet_transactions : List TxnRow
  deriving DecidableEq

/-- `Config.MINIMUM_BID_INCREMENT = 5.00` (`config.py`), i.e. 500 cents. -/
def MINIMUM_BID_INCREMENT : Money := 500

/-- Python truthiness fallback `x or y` on two numbers: `x` is replaced by `y`
when `x` is `0` (Python treats `0`/`0.0` as falsy). -/
def pyOr (x y : Money) : Money := if x = 0 then y else x

/-- Python truthiness fallback `x or y` where `x` is a nullable number
(`None` and `0` both fall through to `y`). -/
def pyOrOpt (x : Option Money) (y : Money) : Money :=
  match x with
  | none => y
  | some v => if v = 0 then y else v

/-- `SELECT ... FROM auctions WHERE auction_id = %s` (first matching row). -/
def findAuction (s : DBState) (auction_id : Nat) : Option Auction :=
  s.auctions.find? (fun a => a.auction_id == auction_id)

/-- `UPDATE auctions SET ... WHERE auction_id = %s`: rewrites every row whose
`auction_id` matches. -/
def updateAuctionRows (s : DBState) (auction_id : Nat) (f : Auction → Auction) :
    DBState :=
  { s with auctions :=
      s.auctions.map (fun a => if a.auction_id == auction_id then f a else a) }

/-- `SELECT * FROM bids WHERE auction_id = %s` in insertion order. -/
def auctionBids (s : DBState) (auction_id : Nat) : List Bid :=
  s.bids.filter (fun b => b.auction_id == auction_id)

/-- `ORDER BY bid_amount DESC LIMIT 1` over a bid list: the highest bid, the
earliest-inserted one among ties.  Used by `get_highest_bid`, and directly
over the `bids` table by the previous-bidder query of `place_bid` and by
`end_auction_immediately` (those two queries have no join). -/
def maxBidRow : List Bid → Option Bid
  | [] => none
  | b :: rest =>
    match maxBidRow rest with
    | none => some b
    | some m => if m.bid_amount ≤ b.bid_amount then some b else some m

/-- `DatabaseManager.get_highest_bid(auction_id)`:
`SELECT ... FROM bids b JOIN users u ON b.bidder_id = u.user_id WHERE
b.auction_id = %s ORDER BY bid_amount DESC LIMIT 1`.  The INNER JOIN drops
any bid whose bidder has no `users` row, so such bids never count. -/
def get_highest_bid (s : DBState) (auction_id : Nat) : Option Bid :=
  maxBidRow (s.bids.filter (fun b =>
    b.auction_id == auction_id &&
      s.users.any (fun u => u.user_id == b.bidder_id)))

/-- `create_notification(user_id, message, type)`: runs on its own freshly
opened connection and commits immediately (`INSERT INTO notifications`,
then `conn.commit()`), independently of any transaction open in the caller. -/
def create_notification (s : DBState) (user_id : Nat) (message : String)
    (ntype : NotifType) : DBState :=
  { s with notifications := s.notifications ++ [⟨user_id, message, ntype⟩] }

/-- Message of the outbid notification emitted by `place_bid`
(`f"You have been outbid on ..."`; quoting of the title elided). -/
def outbidMsg (title : String) : String :=
  "You have been outbid on " ++ title

/-- Result of `place_bid`, modelling the returned `(success, message)` pair.
`bidTooLow` carries the exact amount rendered in
`f"Bid must be at least ..."`. -/
inductive BidResult
  | ok
  | notActive
  | ownAuction
  | bidTooLow (min_bid : Money)
  | dbError
  deriving DecidableEq

/-- The opening query of `place_bid`:
`SELECT * FROM auctions WHERE auction_id = %s AND status = 'active' AND
end_time > NOW()`. -/
def activeAuctionRow (s : DBState) (auction_id : Nat) (now : Int) :
    Option Auction :=
  s.auctions.find? (fun a =>
    a.auction_id == auction_id && a.status == AuctionStatus.active
      && decide (now < a.end_time))

/-- `DatabaseManager.place_bid(auction_id, bidder_id, bid_amount)`.

`commitOk` injects success/failure of the final `conn.commit()`.  The outbid
notification is issued through `create_notification`, which commits on its own
connection *before* the main commit; on commit failure the bid insert and the
`current_bid` update are rolled back but the notification write is already
durable. -/
def place_bid (s : DBState) (now : Int) (auction_id bidder_id : Nat)
    (bid_amount : Money) (commitOk : Bool) : DBState × BidResult :=
  match activeAuctionRow s auction_id now with
  | none => (s, .notActive)
  | some auction =>
    if auction.seller_id == bidder_id then (s, .ownAuction)
    else
      -- current_bid = auction['current_bid'] or auction['starting_bid']
      let current_bid := pyOr auction.current_bid auction.starting_bid
      let min_bid := current_bid + MINIMUM_BID_INCREMENT
      if bid_amount < min_bid then (s, .bidTooLow min_bid)
      else
        -- SELECT bidder_id FROM bids WHERE auction_id = %s
        --   ORDER BY bid_amount DESC LIMIT 1
        let previous_bidder := (maxBidRow (auctionBids s auction_id)).map
          (fun b => b.bidder_id)
        -- the outbid notification commits on its own connection, durable now
        let s1 :=
          match previous_bidder with
          | some pb =>
            if pb ≠ bidder_id then
              create_notification s pb (outbidMsg auction.title) .outbid
            else s
          | none => s
        if commitOk then
          -- INSERT INTO bids ...; UPDATE auctions SET current_bid = %s ...
          let s2 := { s1 with bids := s1.bids ++ [⟨auction_id, bidder_id, bid_amount⟩] }
          let s3 := updateAuctionRows s2 auction_id
            (fun a => { a with current_bid := bid_amount })
          (s3, .ok)
        else
          (s1, .dbError)

/-- Message of the winner notification emitted by `close_expired_auctions`
(`f"Congratulations! You won the auction for ..."`; quoting elided). -/
def wonMsg (title : String) : String :=
  "Congratulations! You won the auction for " ++ title

/-- The `winner` column of the sweep query of `close_expired_auctions`:

```
SELECT a.*, MAX(b.bid_amount) as winning_bid, b.bidder_id as winner
FROM auctions a LEFT JOIN bids b ON a.auction_id = b.auction_id
WHERE a.status = 'active' AND a.end_time <= NOW()
GROUP BY a.auction_id
```

`b.bidder_id` is not aggregated, so MySQL returns it from an indeterminate
row of each group (and rejects the whole query under `ONLY_FULL_GROUP_BY`,
the default since MySQL 5.7); it is *not* tied to the row achieving
`MAX(b.bid_amount)`.  The model realizes the indeterminate pick as the first
bid row of the group in join (= insertion) order.  With no bids the LEFT
JOIN yields a single all-NULL bid row, hence no winner. -/
def groupWinner (bids : List Bid) (auction_id : Nat) : Option Nat :=
  ((bids.filter (fun b => b.auction_id == auction_id)).head?).map
    (fun b => b.bidder_id)

/-- The per-auction body of the loop of `close_expired_auctions`, applied to
an auction row matched by `auction_id`: `status` becomes 'completed', and
`winner_id` is set when the sweep query produced a `winner`. -/
def closeRow (bids : List Bid) (a : Auction) : Auction :=
  match groupWinner bids a.auction_id with
  | some w => { a with status := .completed, winner_id := some w }
  | none => { a with status := .completed }

/-- The loop body of `close_expired_auctions` for one fetched expired
auction `a`: updates the auction row(s) by id to 'completed' (with
`winner_id` when the sweep query produced a `winner`) and, in that case,
emits a 'won' notification (via `create_notification`, separate
connection).  `bids0` is the bid table at the time of the sweep query. -/
def sweepStep (bids0 : List Bid) (st : DBState) (a : Auction) : DBState :=
  match groupWinner bids0 a.auction_id with
  | some w =>
    create_notification
      (updateAuctionRows st a.auction_id
        (fun x => { x with status := .completed, winner_id := some w }))
      w (wonMsg a.title) .won
  | none =>
    updateAuctionRows st a.auction_id
      (fun x => { x with status := .completed })

/-- `DatabaseManager.close_expired_auctions()`: selects the active auctions
whose `end_time` has passed (together with their `winner` per
`groupWinner`), then runs `sweepStep` for each. -/
def close_expired_auctions (s : DBState) (now : Int) : DBState :=
  (s.auctions.filter (fun a =>
    a.status == AuctionStatus.active && decide (a.end_time ≤ now))).foldl
    (sweepStep s.bids) s

/-- Result of `sell_now` (the returned `(success, message)` pair). -/
inductive SellResult
  | noBids
  | sold
  deriving DecidableEq

/-- Message of the winner notification emitted by `sell_now`
(`f"Congratulations! You won auction #... for RM... Please complete your
payment."`; numeric rendering elided, carried structurally). -/
def sellNowMsg (auction_id : Nat) (amount : Money) : String :=
  "Congratulations! You won auction " ++ toString auction_id
    ++ " for " ++ toString amount ++ ". Please complete your payment."

/-- `DatabaseManager.sell_now(auction_id)`: takes the highest bid via
`get_highest_bid` (bids joined with `users`, `ORDER BY bid_amount DESC
LIMIT 1`); with no such bid it fails, otherwise it updates the auction
row(s) to `status='sold'`, `sold_price`/`winner_id` from that bid and
`end_time = NOW()`, and notifies the buyer.  It never reads the auction's
current status. -/
def sell_now (s : DBState) (now : Int) (auction_id : Nat) :
    DBState × SellResult :=
  match get_highest_bid s auction_id with
  | none => (s, .noBids)
  | some hb =>
    let s1 := updateAuctionRows s auction_id (fun a =>
      { a with status := .sold, sold_price := some hb.bid_amount,
               winner_id := some hb.bidder_id, end_time := now })
    (create_notification s1 hb.bidder_id
      (sellNowMsg auction_id hb.bid_amount) .won, .sold)

/-- Result of `end_auction_immediately`. -/
inductive EndResult
  | notFoundOrNotOwner
  | notActive
  | noBids
  | ended
  deriving DecidableEq

/-- Winner notification of `end_auction_immediately` (quoting elided). -/
def endNowMsg (title : String) : String :=
  "Congratulations! The seller accepted your bid for " ++ title
    ++ ". Please complete payment."

/-- `DatabaseManager.end_auction_immediately(auction_id, seller_id)`: checks
ownership, then `status = 'active'`, then requires a highest bid; updates to
`status='completed'` with `winner_id`/`sold_price` from the highest bid and
`end_time = NOW()`, and notifies the winner. -/
def end_auction_immediately (s : DBState) (now : Int)
    (auction_id seller_id : Nat) : DBState × EndResult :=
  match s.auctions.find? (fun a =>
      a.auction_id == auction_id && a.seller_id == seller_id) with
  | none => (s, .notFoundOrNotOwner)
  | some auction =>
    if auction.status ≠ AuctionStatus.active then (s, .notActive)
    else
      match maxBidRow (auctionBids s auction_id) with
      | none => (s, .noBids)
      | some hb =>
        let s1 := updateAuctionRows s auction_id (fun a =>
          { a with status := .completed, winner_id := some hb.bidder_id,
                   sold_price := some hb.bid_amount, end_time := now })
        (create_notification s1 hb.bidder_id (endNowMsg auction.title) .won,
          .ended)

/-- `SELECT wallet_balance FROM users WHERE user_id = %s` over a user list
(first matching row); the callers treat a missing row as balance `0.00`. -/
def findBal : List User → Nat → Money
  | [], _ => 0
  | u :: us, user_id =>
    if u.user_id == user_id then u.wallet_balance else findBal us user_id

/-- `DatabaseManager.get_wallet_balance(user_id)`. -/
def get_wallet_balance (s : DBState) (user_id : Nat) : Money :=
  findBal s.users user_id

/-- `UPDATE users SET wallet_balance = %s WHERE user_id = %s`: rewrites
every matching row. -/
def setBal : List User → Nat → Money → List User
  | [], _, _ => []
  | u :: us, user_id, v =>
    (if u.user_id == user_id then { u with wallet_balance := v } else u) ::
      setBal us user_id v

/-- `DatabaseManager.add_to_wallet(user_id, amount, type, descr, ref)`:
reads the balance (0 if the user row is missing), adds `amount`, writes the
user row and appends a `wallet_transactions` row with
`balance_after = new_balance`, in one committed transaction. -/
def add_to_wallet (s : DBState) (user_id : Nat) (amount : Money)
    (transaction_type description : String) (reference_id : Option Nat) :
    DBState × Bool :=
  let current_balance := findBal s.users user_id
  let new_balance := current_balance + amount
  let s1 := { s with users := setBal s.users user_id new_balance }
  ({ s1 with wallet_transactions := s1.wallet_transactions ++
      [⟨user_id, transaction_type, amount, new_balance, description,
        reference_id⟩] }, true)

/-- Result of `deduct_from_wallet` (the `(success, message)` pair). -/
inductive WalletResult
  | success
  | insufficientBalance
  deriving DecidableEq

/-- `DatabaseManager.deduct_from_wallet(user_id, amount, type, descr, ref)`:
like `add_to_wallet` but first checks `current_balance >= amount` and fails
with "Insufficient wallet balance" (before any write) otherwise. -/
def deduct_from_wallet (s : DBState) (user_id : Nat) (amount : Money)
    (transaction_type description : String) (reference_id : Option Nat) :
    DBState × WalletResult :=
  let current_balance := findBal s.users user_id
  if current_balance < amount then (s, .insufficientBalance)
  else
    let new_balance := current_balance - amount
    let s1 := { s with users := setBal s.users user_id new_balance }
    ({ s1 with wallet_transactions := s1.wallet_transactions ++
        [⟨user_id, transaction_type, amount, new_balance, description,
          reference_id⟩] }, .success)

/-- Result of `process_wallet_payment`; `insufficient` carries the exact
shortfall rendered in `f"... You need ... more."`. -/
inductive PayResult
  | auctionNotFound
  | notWinner
  | insufficient (shortfall : Money)
  | paid
  deriving DecidableEq

/-- Buyer-side description `f"Payment for ..."` (quoting elided). -/
def paymentMadeDescr (title : String) : String := "Payment for " ++ title

/-- Seller-side description `f"Payment received for ..."`. -/
def paymentReceivedDescr (title : String) : String :=
  "Payment received for " ++ title

/-- Seller notification message of `process_wallet_payment`. -/
def paymentNotifMsg (amount : Money) (title : String) : String :=
  "Payment of " ++ toString amount ++ " received for " ++ title
    ++ " (added to wallet)"

/-- `DatabaseManager.process_wallet_payment(auction_id, buyer_id)`:
looks the auction up by id; fails unless `winner_id = buyer_id`; the owed
amount is `float(sold_price or current_bid)`; fails with the exact shortfall
when the buyer's balance is below it; otherwise, in one transaction, debits
the buyer, credits the seller (reading the seller balance after the buyer
update, as the same connection sees its own uncommitted write), appends the
`payment_made` and `payment_received` ledger rows with their respective
`balance_after`, marks the auction `payment_status = 'paid'` and notifies
the seller.  It never checks the current `payment_status`. -/
def process_wallet_payment (s : DBState) (auction_id buyer_id : Nat) :
    DBState × PayResult :=
  match findAuction s auction_id with
  | none => (s, .auctionNotFound)
  | some auction =>
    if auction.winner_id ≠ some buyer_id then (s, .notWinner)
    else
      let seller_id := auction.seller_id
      -- amount = float(auction['sold_price'] or auction['current_bid'])
      let amount := pyOrOpt auction.sold_price auction.current_bid
      let buyer_balance := findBal s.users buyer_id
      if buyer_balance < amount then (s, .insufficient (amount - buyer_balance))
      else
        let new_buyer_balance := buyer_balance - amount
        let s1 := { s with users := setBal s.users buyer_id new_buyer_balance }
        let seller_balance := findBal s1.users seller_id
        let new_seller_balance := seller_balance + amount
        let s2 := { s1 with users := setBal s1.users seller_id new_seller_balance }
        let s3 := { s2 with wallet_transactions := s2.wallet_transactions ++
          [⟨buyer_id, "payment_made", amount, new_buyer_balance,
            paymentMadeDescr auction.title, some auction_id⟩,
           ⟨seller_id, "payment_received", amount, new_seller_balance,
            paymentReceivedDescr auction.title, some auction_id⟩] }
        let s4 := updateAuctionRows s3 auction_id
          (fun a => { a with payment_status := some .paid })
        (create_notification s4 seller_id
          (paymentNotifMsg amount auction.title) .won, .paid)

/-- A committed wallet-mutating operation of the Wallet Engine /
Payment Settlement components, for reasoning about operation sequences. -/
inductive WalletOp
  | add (user_id : Nat) (amount : Money) (ttype descr : String)
      (ref : Option Nat)
  | deduct (user_id : Nat) (amount : Money) (ttype descr : String)
      (ref : Option Nat)
  | pay (auction_id buyer_id : Nat)

/-- State action of one wallet operation (result value discarded). -/
def applyWalletOp (s : DBState) : WalletOp → DBState
  | .add uid amt t d r => (add_to_wallet s uid amt t d r).1
  | .deduct uid amt t d r => (deduct_from_wallet s uid amt t d r).1
  | .pay aid bid => (process_wallet_payment s aid bid).1

/-- The most recent `wallet_transactions` row of a user (rows are appended,
so it is the last matching row). -/
def lastTxn (s : DBState) (user_id : Nat) : Option TxnRow :=
  (s.wallet_transactions.filter (fun t => t.user_id == user_id)).getLast?

/-- The ledger reconciliation invariant (spec §3): for every user in the
`users` table, the most recently appended wallet transaction of that user
(if any) records `balance_after` equal to the user's current wallet
balance. -/
def LedgerInv (s : DBState) : Prop :=
  ∀ uid ∈ s.users.map (fun u => u.user_id), ∀ t, lastTxn s uid = some t →
    t.balance_after = findBal s.users uid

end ArtAuction

namespace ArtAuction

-- sanity example (spec §8 scenario): starting bid $100, a bid of $100 is
-- rejected with minimum $105, a bid of $105 is accepted
example :
    (place_bid
      ⟨[], [⟨1, 10, "art", 10000, 10000, .active, 50, none, none, none⟩], [], [], []⟩
      5 1 2 10000 true).2 = BidResult.bidTooLow 10500 := by decide

example :
    (place_bid
      ⟨[], [⟨1, 10, "art", 10000, 10000, .active, 50, none, none, none⟩], [], [], []⟩
      5 1 2 10500 true).2 = BidResult.ok := by decide

end ArtAuction


namespace ArtAuction

/-! ## Claim C2: bid acceptance condition of `place_bid` -/

/-- **C2.** On an active auction (`activeAuctionRow` finds the row) and for a
bidder who is not the seller, `place_bid` accepts the bid iff
`bid_amount ≥ current_bid + MINIMUM_BID_INCREMENT`, where `current_bid`
falls back to `starting_bid` Python-truthily; on acceptance the auction
row's cached `current_bid` becomes the bid amount; on rejection the state is
returned unchanged and the error carries the exact computed minimum. -/
theorem place_bid_min_increment_spec (s : DBState) (now : Int)
    (auction_id bidder_id : Nat) (bid_amount : Money) (au : Auction)
    (hau : activeAuctionRow s auction_id now = some au)
    (hne : au.seller_id ≠ bidder_id) :
    ((place_bid s now auction_id bidder_id bid_amount true).2 = .ok ↔
      pyOr au.current_bid au.starting_bid + MINIMUM_BID_INCREMENT ≤ bid_amount) ∧
    (pyOr au.current_bid au.starting_bid + MINIMUM_BID_INCREMENT ≤ bid_amount →
      (place_bid s now auction_id bidder_id bid_amount true).1.auctions =
        s.auctions.map (fun a => if a.auction_id == auction_id then
          { a with current_bid := bid_amount } else a)) ∧
    (bid_amount < pyOr au.current_bid au.starting_bid + MINIMUM_BID_INCREMENT →
      place_bid s now auction_id bidder_id bid_amount true =
        (s, .bidTooLow (pyOr au.current_bid au.starting_bid + MINIMUM_BID_INCREMENT))) := by
  have hbne : (au.seller_id == bidder_id) = false := by simp [hne]
  by_cases hlt :
      bid_amount < pyOr au.current_bid au.starting_bid + MINIMUM_BID_INCREMENT
  · have hres : place_bid s now auction_id bidder_id bid_amount true =
        (s, .bidTooLow (pyOr au.current_bid au.starting_bid + MINIMUM_BID_INCREMENT)) := by
      simp [place_bid, hau, hbne, hlt]
    refine ⟨?_, fun hge => absurd hge (not_le.mpr hlt), fun _ => hres⟩
    rw [hres]
    simp [not_le.mpr hlt]
  · have hres : place_bid s now auction_id bidder_id bid_amount true =
        (let s1 := match (maxBidRow (auctionBids s auction_id)).map
            (fun b => b.bidder_id) with
          | some pb =>
            if pb ≠ bidder_id then
              create_notification s pb (outbidMsg au.title) .outbid
            else s
          | none => s
        let s2 := { s1 with bids :=
          s1.bids ++ [⟨auction_id, bidder_id, bid_amount⟩] }
        (updateAuctionRows s2 auction_id
          (fun a => { a with current_bid := bid_amount }), .ok)) := by
      simp [place_bid, hau, hbne, hlt]
    refine ⟨?_, fun _ => ?_, fun h => absurd h hlt⟩
    · rw [hres]
      simp [not_lt.mp hlt]
    · rw [hres]
      cases (maxBidRow (auctionBids s auction_id)).map (fun b => b.bidder_id) with
      | none => simp [updateAuctionRows]
      | some pb =>
        by_cases hpb : pb ≠ bidder_id <;>
          simp [hpb, create_notification, updateAuctionRows]

/-- Witness for C2 at concrete inputs (spec §8 scenario, in cents):
starting bid $100 with no prior bid, a $100 bid is rejected with the exact
minimum $105, a $105 bid is accepted and caches `current_bid = 105.00`. -/
theorem place_bid_min_increment_spec_witness :
    (place_bid ⟨[], [⟨1, 10, "art", 10000, 10000, .active, 50, none, none, none⟩],
        [], [], []⟩ 5 1 2 10000 true) =
      (⟨[], [⟨1, 10, "art", 10000, 10000, .active, 50, none, none, none⟩],
        [], [], []⟩, .bidTooLow 10500) ∧
    (place_bid ⟨[], [⟨1, 10, "art", 10000, 10000, .active, 50, none, none, none⟩],
        [], [], []⟩ 5 1 2 10500 true).2 = .ok := by
  constructor
  · exact (place_bid_min_increment_spec
      ⟨[], [⟨1, 10, "art", 10000, 10000, .active, 50, none, none, none⟩], [], [], []⟩
      5 1 2 10000 ⟨1, 10, "art", 10000, 10000, .active, 50, none, none, none⟩
      (by decide) (by decide)).2.2 (by decide)
  · exact ((place_bid_min_increment_spec
      ⟨[], [⟨1, 10, "art", 10000, 10000, .active, 50, none, none, none⟩], [], [], []⟩
      5 1 2 10500 ⟨1, 10, "art", 10000, 10000, .active, 50, none, none, none⟩
      (by decide) (by decide)).1).2 (by decide)

end ArtAuction

namespace ArtAuction

/-! ## Claim C9: a seller can never bid on their own auction -/

/-- **C9.** `place_bid(auction_id, seller_id_of_that_auction, amount)` always
fails with the state unchanged, for either value of the injected commit
outcome: if the auction-active query finds the row (auction exists, is
active, not ended), the failure — checked right after that query — is the
own-auction authorization error; if the query finds no row, the bid (by the
seller like by anyone) fails with the auction-not-active error. -/
theorem place_bid_seller_always_fails (s : DBState) (now : Int)
    (auction_id : Nat) (bid_amount : Money) (commitOk : Bool) :
    (∀ au : Auction, activeAuctionRow s auction_id now = some au →
      place_bid s now auction_id au.seller_id bid_amount commitOk =
        (s, .ownAuction)) ∧
    (activeAuctionRow s auction_id now = none → ∀ bidder_id : Nat,
      place_bid s now auction_id bidder_id bid_amount commitOk =
        (s, .notActive)) := by
  constructor
  · intro au hau
    simp [place_bid, hau]
  · intro hnone bidder_id
    simp [place_bid, hnone]

/-- Witness for C9: on a concrete state whose auction 1 is active with
seller 10, the seller's own bid of any sufficient amount is rejected with
the own-auction error and the state is unchanged; on auction 2 (expired) a
seller bid is rejected as not active. -/
theorem place_bid_seller_always_fails_witness :
    place_bid ⟨[], [⟨1, 10, "art", 10000, 10000, .active, 50, none, none, none⟩,
        ⟨2, 11, "old", 10000, 10000, .active, -50, none, none, none⟩],
      [], [], []⟩ 5 1 10 99999 true =
      (⟨[], [⟨1, 10, "art", 10000, 10000, .active, 50, none, none, none⟩,
          ⟨2, 11, "old", 10000, 10000, .active, -50, none, none, none⟩],
        [], [], []⟩, .ownAuction) ∧
    place_bid ⟨[], [⟨1, 10, "art", 10000, 10000, .active, 50, none, none, none⟩,
        ⟨2, 11, "old", 10000, 10000, .active, -50, none, none, none⟩],
      [], [], []⟩ 5 2 11 99999 true =
      (⟨[], [⟨1, 10, "art", 10000, 10000, .active, 50, none, none, none⟩,
          ⟨2, 11, "old", 10000, 10000, .active, -50, none, none, none⟩],
        [], [], []⟩, .notActive) := by
  constructor
  · exact (place_bid_seller_always_fails
      ⟨[], [⟨1, 10, "art", 10000, 10000, .active, 50, none, none, none⟩,
          ⟨2, 11, "old", 10000, 10000, .active, -50, none, none, none⟩],
        [], [], []⟩ 5 1 99999 true).1
      ⟨1, 10, "art", 10000, 10000, .active, 50, none, none, none⟩ (by decide)
  · exact (place_bid_seller_always_fails
      ⟨[], [⟨1, 10, "art", 10000, 10000, .active, 50, none, none, none⟩,
          ⟨2, 11, "old", 10000, 10000, .active, -50, none, none, none⟩],
        [], [], []⟩ 5 2 99999 true).2 (by decide) 11

end ArtAuction

namespace ArtAuction

/-! ## Claims C3 and C1: concrete demonstration state

One auction (id 1, seller 10, title "art", starting bid $10.00, cached
current bid $20.00, active, `end_time = 0`) with two bids in insertion
order: bidder 2 at $10.00, then bidder 3 at $20.00. -/

/-- Concrete state used to exercise `place_bid` rollback and the expiry
sweep. -/
def demoState : DBState :=
  ⟨[⟨2, 10000⟩, ⟨3, 0⟩, ⟨10, 0⟩],
   [⟨1, 10, "art", 1000, 2000, .active, 0, none, none, none⟩],
   [⟨1, 2, 1000⟩, ⟨1, 3, 2000⟩], [], []⟩

/-! ## Claim C3: the three writes of `place_bid` are not one transaction -/

/-- **C3, counterexample.** A concrete refutation of "if any step fails, all
three writes are rolled back; in particular no outbid notification persists
when the bid itself does not commit": on `demoState` (auction 1 active at
`now = -1`, previous highest bidder 3), bidder 4's accepted bid of $30.00
with a failing final commit returns the database-error result with the bid
insert and `current_bid` update rolled back — yet the outbid notification
to bidder 3, committed by `create_notification` on its own connection,
persists. -/
theorem place_bid_rollback_keeps_notification :
    place_bid demoState (-1) 1 4 3000 false =
      ({ demoState with
          notifications := [⟨3, outbidMsg "art", .outbid⟩] }, .dbError) ∧
    (place_bid demoState (-1) 1 4 3000 false).1.bids = demoState.bids ∧
    (place_bid demoState (-1) 1 4 3000 false).1.notifications ≠
      demoState.notifications := by
  refine ⟨by decide, by decide, by decide⟩

/-- **C3, amended.** On a successful `place_bid` validation where a
different bidder previously held the highest bid: if the final commit
succeeds, the bid insert, the `current_bid` update and the outbid
notification all persist; if the final commit fails, the bid insert and the
`current_bid` update are rolled back and a database-error result is
returned, but the outbid notification — committed on a separate connection
by `create_notification` before the main commit — persists anyway. -/
theorem place_bid_atomicity_amended (s : DBState) (now : Int)
    (auction_id bidder_id : Nat) (bid_amount : Money) (au : Auction)
    (pb : Nat)
    (hau : activeAuctionRow s auction_id now = some au)
    (hne : au.seller_id ≠ bidder_id)
    (hge : pyOr au.current_bid au.starting_bid + MINIMUM_BID_INCREMENT ≤
      bid_amount)
    (hpb : (maxBidRow (auctionBids s auction_id)).map (fun b => b.bidder_id) =
      some pb)
    (hpbne : pb ≠ bidder_id) :
    place_bid s now auction_id bidder_id bid_amount true =
      ({ s with
          notifications := s.notifications ++ [⟨pb, outbidMsg au.title, .outbid⟩],
          bids := s.bids ++ [⟨auction_id, bidder_id, bid_amount⟩],
          auctions := s.auctions.map (fun a => if a.auction_id == auction_id
            then { a with current_bid := bid_amount } else a) }, .ok) ∧
    place_bid s now auction_id bidder_id bid_amount false =
      ({ s with
          notifications := s.notifications ++ [⟨pb, outbidMsg au.title, .outbid⟩] },
        .dbError) := by
  have hbne : (au.seller_id == bidder_id) = false := by simp [hne]
  constructor <;>
    simp [place_bid, hau, hbne, not_lt.mpr hge, hpb, hpbne,
      create_notification, updateAuctionRows]

/-- Witness for the amended C3 at the concrete input of the counterexample:
with a succeeding commit all three writes land; with a failing commit only
the notification does. -/
theorem place_bid_atomicity_amended_witness :
    place_bid demoState (-1) 1 4 3000 true =
      ({ demoState with
          notifications := [⟨3, outbidMsg "art", .outbid⟩],
          bids := demoState.bids ++ [⟨1, 4, 3000⟩],
          auctions := [⟨1, 10, "art", 1000, 3000, .active, 0, none, none, none⟩] },
        .ok) ∧
    place_bid demoState (-1) 1 4 3000 false =
      ({ demoState with
          notifications := [⟨3, outbidMsg "art", .outbid⟩] }, .dbError) := by
  have h := place_bid_atomicity_amended demoState (-1) 1 4 3000
    ⟨1, 10, "art", 1000, 2000, .active, 0, none, none, none⟩ 3
    (by decide) (by decide) (by decide) (by decide) (by decide)
  exact ⟨by rw [h.1]; decide, by rw [h.2]; decide⟩

/-! ## Claim C1: the expiry sweep's winner is not the maximum bidder -/

/-- **C1, failing input.** `close_expired_auctions` on `demoState` at
`now = 1`: the claim says the expired auction's `winner_id` becomes the
bidder of the maximum bid (bidder 3, $20.00).  The sweep query instead
returns the non-aggregated `b.bidder_id` of an indeterminate row of the
`GROUP BY` group — realized as the first joined bid row, bidder 2 — so the
auction closes with `winner_id = 2` even though the maximum bid is bidder
3's. -/
theorem close_expired_auctions_wrong_winner :
    findAuction (close_expired_auctions demoState 1) 1 =
      some ⟨1, 10, "art", 1000, 2000, .completed, 0, some 2, none, none⟩ ∧
    (maxBidRow (auctionBids demoState 1)).map (fun b => b.bidder_id) =
      some 3 := by
  refine ⟨by decide, by decide⟩

end ArtAuction

namespace ArtAuction

/-! ## Claim C8: idempotence of the expiry sweep -/

/-- `closeRow` keeps the auction id. -/
theorem closeRow_auction_id (bids0 : List Bid) (r : Auction) :
    (closeRow bids0 r).auction_id = r.auction_id := by
  unfold closeRow
  cases groupWinner bids0 r.auction_id <;> rfl

/-- `closeRow` always produces a 'completed' row. -/
theorem closeRow_status (bids0 : List Bid) (r : Auction) :
    (closeRow bids0 r).status = .completed := by
  unfold closeRow
  cases groupWinner bids0 r.auction_id <;> rfl

/-- Closing an already-closed row changes nothing (the winner is a function
of the auction id alone). -/
theorem closeRow_closeRow (bids0 : List Bid) (r : Auction) :
    closeRow bids0 (closeRow bids0 r) = closeRow bids0 r := by
  cases hw : groupWinner bids0 r.auction_id <;> simp [closeRow, hw]

/-- One `sweepStep` acts on the auction table as `closeRow` on the rows
matching the processed auction's id. -/
theorem sweepStep_auctions (bids0 : List Bid) (st : DBState) (a : Auction) :
    (sweepStep bids0 st a).auctions =
      st.auctions.map (fun r =>
        if r.auction_id == a.auction_id then closeRow bids0 r else r) := by
  cases hw : groupWinner bids0 a.auction_id <;>
  · simp only [sweepStep, hw, create_notification, updateAuctionRows]
    refine List.map_congr_left (fun r _ => ?_)
    by_cases h : (r.auction_id == a.auction_id) = true
    · have heq : r.auction_id = a.auction_id := by simpa using h
      simp [h, closeRow, heq, hw]
    · simp [h]

/-- The whole sweep fold acts on the auction table as `closeRow` on the rows
whose id occurs among the processed auctions. -/
theorem sweep_fold_auctions (bids0 : List Bid) (E : List Auction)
    (st : DBState) :
    (E.foldl (sweepStep bids0) st).auctions =
      st.auctions.map (fun r =>
        if E.any (fun a => r.auction_id == a.auction_id) then closeRow bids0 r
        else r) := by
  induction E generalizing st with
  | nil => simp
  | cons a E ih =>
    rw [List.foldl_cons, ih, sweepStep_auctions, List.map_map]
    refine List.map_congr_left (fun r _ => ?_)
    simp only [Function.comp_apply, List.any_cons]
    by_cases h : (r.auction_id == a.auction_id) = true
    · rw [if_pos h]
      simp only [h, Bool.true_or, if_true]
      simp only [closeRow_auction_id]
      by_cases h2 : (E.any (fun a => r.auction_id == a.auction_id)) = true
      · rw [if_pos h2, closeRow_closeRow]
      · rw [if_neg h2]
    · have hb : (r.auction_id == a.auction_id) = false := by
        simpa using h
      rw [if_neg h]
      simp only [hb, Bool.false_or]

/-- **C8.** The expiry sweep is idempotent: a second run of
`close_expired_auctions` right after a completed run (same clock, no
intervening writes) finds no auction still 'active' with `end_time` in the
past — the sweep selects and updates only rows still 'active', and every
such expired row was turned 'completed' by the first run — so the second
run changes nothing at all. -/
theorem close_expired_auctions_idempotent (s : DBState) (now : Int) :
    close_expired_auctions (close_expired_auctions s now) now =
      close_expired_auctions s now := by
  have hnil : (close_expired_auctions s now).auctions.filter (fun a =>
      a.status == AuctionStatus.active && decide (a.end_time ≤ now)) = [] := by
    rw [List.filter_eq_nil_iff]
    intro x hx
    rw [show close_expired_auctions s now = (s.auctions.filter (fun a =>
        a.status == AuctionStatus.active && decide (a.end_time ≤ now))).foldl
        (sweepStep s.bids) s from rfl, sweep_fold_auctions] at hx
    obtain ⟨r, hr, rfl⟩ := List.mem_map.mp hx
    by_cases hc : ((s.auctions.filter (fun a =>
        a.status == AuctionStatus.active && decide (a.end_time ≤ now))).any
        (fun a => r.auction_id == a.auction_id)) = true
    · rw [if_pos hc]
      simp [closeRow_status]
    · rw [if_neg hc]
      intro hpred
      exact hc (List.any_of_mem (List.mem_filter.mpr ⟨hr, hpred⟩)
        (by simp))
  rw [show close_expired_auctions (close_expired_auctions s now) now =
      ((close_expired_auctions s now).auctions.filter (fun a =>
        a.status == AuctionStatus.active && decide (a.end_time ≤ now))).foldl
      (sweepStep (close_expired_auctions s now).bids)
      (close_expired_auctions s now) from rfl, hnil]
  rfl

end ArtAuction

namespace ArtAuction

/-! ## Claim C4: guards of `process_wallet_payment` -/

/-- **C4.** For an existing auction: if the caller is not the recorded
winner, `process_wallet_payment` fails with the not-winner error and the
state unchanged; otherwise, with the owed amount being `sold_price` falling
back (Python-truthily) to `current_bid`, if the buyer's balance is below
that amount the call fails carrying the exact shortfall
(`amount - balance`) and the full state — wallet balances and
`payment_status` included — is returned unchanged. -/
theorem process_wallet_payment_guards (s : DBState) (auction_id buyer_id : Nat)
    (au : Auction) (hau : findAuction s auction_id = some au) :
    (au.winner_id ≠ some buyer_id →
      process_wallet_payment s auction_id buyer_id = (s, .notWinner)) ∧
    (au.winner_id = some buyer_id →
      findBal s.users buyer_id < pyOrOpt au.sold_price au.current_bid →
      process_wallet_payment s auction_id buyer_id =
        (s, .insufficient (pyOrOpt au.sold_price au.current_bid -
          findBal s.users buyer_id))) := by
  constructor
  · intro hnw
    simp [process_wallet_payment, hau, hnw]
  · intro hw hlt
    simp [process_wallet_payment, hau, hw, hlt]

/-- Witness for C4 (spec §8 scenario, in cents): auction 1 sold at $80.00 to
winner 2 whose balance is $50.00 — payment fails with the exact $30.00
shortfall and the state unchanged; user 3 (not the winner) is refused. -/
theorem process_wallet_payment_guards_witness :
    process_wallet_payment
      ⟨[⟨2, 5000⟩, ⟨10, 0⟩],
        [⟨1, 10, "art", 1000, 7000, .sold, 0, some 2, some 8000, none⟩],
        [], [], []⟩ 1 2 =
      (⟨[⟨2, 5000⟩, ⟨10, 0⟩],
        [⟨1, 10, "art", 1000, 7000, .sold, 0, some 2, some 8000, none⟩],
        [], [], []⟩, .insufficient 3000) ∧
    process_wallet_payment
      ⟨[⟨2, 5000⟩, ⟨10, 0⟩],
        [⟨1, 10, "art", 1000, 7000, .sold, 0, some 2, some 8000, none⟩],
        [], [], []⟩ 1 3 =
      (⟨[⟨2, 5000⟩, ⟨10, 0⟩],
        [⟨1, 10, "art", 1000, 7000, .sold, 0, some 2, some 8000, none⟩],
        [], [], []⟩, .notWinner) := by
  constructor
  · exact ((process_wallet_payment_guards
      ⟨[⟨2, 5000⟩, ⟨10, 0⟩],
        [⟨1, 10, "art", 1000, 7000, .sold, 0, some 2, some 8000, none⟩],
        [], [], []⟩ 1 2
      ⟨1, 10, "art", 1000, 7000, .sold, 0, some 2, some 8000, none⟩
      (by decide)).2 (by decide) (by decide))
  · exact ((process_wallet_payment_guards
      ⟨[⟨2, 5000⟩, ⟨10, 0⟩],
        [⟨1, 10, "art", 1000, 7000, .sold, 0, some 2, some 8000, none⟩],
        [], [], []⟩ 1 3
      ⟨1, 10, "art", 1000, 7000, .sold, 0, some 2, some 8000, none⟩
      (by decide)).1 (by decide))

/-! ## Claim C5: repeated payment on an already-paid auction -/

/-- Concrete state for the repeated-payment check: auction 1 already
`payment_status = 'paid'` (winner 2 at sold price $80.00), buyer 2 holds
$100.00 and seller 10 holds $0.00. -/
def paidState : DBState :=
  ⟨[⟨2, 10000⟩, ⟨10, 0⟩],
   [⟨1, 10, "art", 1000, 8000, .sold, 0, some 2, some 8000, some .paid⟩],
   [⟨1, 2, 8000⟩], [], []⟩

/-- **C5, failing input.** The claim requires a second
`process_wallet_payment` on an already-paid auction to fail with no state
change.  The code never reads `payment_status`: on `paidState` the repeated
call succeeds, debits the buyer again ($100.00 → $20.00), credits the
seller again ($0.00 → $80.00) and appends two more ledger rows. -/
theorem process_wallet_payment_double_charge :
    (process_wallet_payment paidState 1 2).2 = .paid ∧
    findBal (process_wallet_payment paidState 1 2).1.users 2 = 2000 ∧
    findBal (process_wallet_payment paidState 1 2).1.users 10 = 8000 ∧
    (process_wallet_payment paidState 1 2).1.wallet_transactions.length = 2 := by
  refine ⟨by decide, by decide, by decide, by decide⟩

end ArtAuction

namespace ArtAuction

/-! ## Wallet-table lemmas shared by the wallet claims -/

/-- Reading back the balance just written: the written value when the user
row exists, the callers' missing-row default `0` otherwise. -/
theorem findBal_setBal_self (users : List User) (uid : Nat) (v : Money) :
    findBal (setBal users uid v) uid =
      if users.any (fun u => u.user_id == uid) then v else 0 := by
  induction users with
  | nil => rfl
  | cons u us ih =>
    by_cases h : (u.user_id == uid) = true
    · simp [setBal, findBal, h]
    · simp [setBal, findBal, h, ih]

/-- Updating one user's balance leaves every other user's read unchanged. -/
theorem findBal_setBal_ne (users : List User) (uid uid' : Nat) (v : Money)
    (h : uid' ≠ uid) :
    findBal (setBal users uid v) uid' = findBal users uid' := by
  induction users with
  | nil => rfl
  | cons u us ih =>
    by_cases hu : (u.user_id == uid) = true
    · have hu' : (u.user_id == uid') = false := by
        have := beq_iff_eq.mp hu
        simp [this, Ne.symm h]
      simp [setBal, findBal, hu, hu', ih]
    · simp [setBal, findBal, hu, ih]

/-- `setBal` does not change the set (or order) of user ids. -/
theorem setBal_ids (users : List User) (uid : Nat) (v : Money) :
    (setBal users uid v).map (fun u => u.user_id) =
      users.map (fun u => u.user_id) := by
  induction users with
  | nil => rfl
  | cons u us ih =>
    by_cases h : (u.user_id == uid) = true <;> simp [setBal, h, ih]

/-- A user listed in the table satisfies the `any`-match used by
`findBal_setBal_self`. -/
theorem mem_ids_any (users : List User) (uid : Nat)
    (h : uid ∈ users.map (fun u => u.user_id)) :
    users.any (fun u => u.user_id == uid) = true := by
  obtain ⟨u, hu, rfl⟩ := List.mem_map.mp h
  exact List.any_of_mem hu (by simp)

/-! ## Claim C7: debits cannot overdraw a wallet -/

/-- **C7.** Whenever the requested amount exceeds the current balance,
`deduct_from_wallet` fails with the insufficient-balance error and the state
is returned unchanged — no balance write and no ledger row.  Consequently,
starting from a non-negative balance, a debit never leaves the balance
negative. -/
theorem deduct_from_wallet_no_overdraft (s : DBState) (user_id : Nat)
    (amount : Money) (ttype descr : String) (ref : Option Nat) :
    (findBal s.users user_id < amount →
      deduct_from_wallet s user_id amount ttype descr ref =
        (s, .insufficientBalance)) ∧
    (0 ≤ findBal s.users user_id →
      0 ≤ findBal
        (deduct_from_wallet s user_id amount ttype descr ref).1.users
        user_id) := by
  constructor
  · intro hlt
    simp [deduct_from_wallet, hlt]
  · intro hnn
    by_cases hlt : findBal s.users user_id < amount
    · simp [deduct_from_wallet, hlt, hnn]
    · simp only [deduct_from_wallet, if_neg hlt]
      rw [findBal_setBal_self]
      by_cases hany : (s.users.any (fun u => u.user_id == user_id)) = true
      · rw [if_pos hany]
        exact Int.sub_nonneg.mpr (not_lt.mp hlt)
      · rw [if_neg hany]

/-- Witness for C7: user 1 with balance $20.00; a $30.00 debit fails,
leaves the state unchanged, and the balance stays non-negative. -/
theorem deduct_from_wallet_no_overdraft_witness :
    deduct_from_wallet ⟨[⟨1, 2000⟩], [], [], [], []⟩ 1 3000 "cash_out" "w" none =
      (⟨[⟨1, 2000⟩], [], [], [], []⟩, .insufficientBalance) ∧
    0 ≤ findBal
      (deduct_from_wallet ⟨[⟨1, 2000⟩], [], [], [], []⟩ 1 3000 "cash_out" "w"
        none).1.users 1 := by
  constructor
  · exact (deduct_from_wallet_no_overdraft
      ⟨[⟨1, 2000⟩], [], [], [], []⟩ 1 3000 "cash_out" "w" none).1 (by decide)
  · exact (deduct_from_wallet_no_overdraft
      ⟨[⟨1, 2000⟩], [], [], [], []⟩ 1 3000 "cash_out" "w" none).2 (by decide)

end ArtAuction

namespace ArtAuction

/-! ## Claim C6: the ledger reconciliation invariant -/

/-- Appending one ledger row: a user's most recent row becomes the new row
when it is theirs, and is unchanged otherwise. -/
theorem getLast?_filter_concat (l : List TxnRow) (t : TxnRow)
    (p : TxnRow → Bool) :
    ((l ++ [t]).filter p).getLast? =
      if p t then some t else (l.filter p).getLast? := by
  rw [List.filter_append]
  by_cases h : p t = true
  · simp [h, List.getLast?_concat]
  · simp [h]

/-- The invariant reads only the `users` and `wallet_transactions` tables. -/
theorem ledgerInv_congr (s s' : DBState) (hu : s'.users = s.users)
    (ht : s'.wallet_transactions = s.wallet_transactions) (h : LedgerInv s) :
    LedgerInv s' := by
  intro uid hmem t htr
  rw [hu] at hmem
  rw [show lastTxn s' uid = lastTxn s uid by unfold lastTxn; rw [ht]] at htr
  rw [hu]
  exact h uid hmem t htr

/-- One balance write together with its ledger row (recording exactly the
written balance as `balance_after`) preserves the invariant. -/
theorem ledgerInv_write (s : DBState) (uid : Nat) (v : Money) (row : TxnRow)
    (hrow_uid : row.user_id = uid) (hrow_bal : row.balance_after = v)
    (h : LedgerInv s) :
    LedgerInv { s with
      users := setBal s.users uid v,
      wallet_transactions := s.wallet_transactions ++ [row] } := by
  intro uid' hmem t htr
  rw [setBal_ids] at hmem
  rw [show lastTxn { s with
        users := setBal s.users uid v,
        wallet_transactions := s.wallet_transactions ++ [row] } uid' =
      if (row.user_id == uid') then some row else lastTxn s uid' from
    getLast?_filter_concat s.wallet_transactions row _] at htr
  by_cases hu : (row.user_id == uid') = true
  · rw [if_pos hu] at htr
    cases htr
    have huid : uid' = uid := by
      have := beq_iff_eq.mp hu
      rw [hrow_uid] at this
      exact this.symm
    subst huid
    rw [findBal_setBal_self, if_pos (mem_ids_any _ _ hmem), hrow_bal]
  · rw [if_neg hu] at htr
    have hne : uid' ≠ uid := by
      intro he
      exact hu (by rw [hrow_uid, he, beq_self_eq_true])
    rw [findBal_setBal_ne _ _ _ _ hne]
    exact h uid' hmem t htr

/-- Every single committed wallet-mutating operation preserves the ledger
reconciliation invariant. -/
theorem applyWalletOp_preserves (s : DBState) (op : WalletOp)
    (h : LedgerInv s) : LedgerInv (applyWalletOp s op) := by
  cases op with
  | add uid amt ttype descr ref =>
    exact ledgerInv_write s uid (findBal s.users uid + amt)
      ⟨uid, ttype, amt, findBal s.users uid + amt, descr, ref⟩ rfl rfl h
  | deduct uid amt ttype descr ref =>
    by_cases hlt : findBal s.users uid < amt
    · rw [show applyWalletOp s (.deduct uid amt ttype descr ref) = s by
        simp [applyWalletOp, deduct_from_wallet, hlt]]
      exact h
    · rw [show applyWalletOp s (.deduct uid amt ttype descr ref) =
          { s with
            users := setBal s.users uid (findBal s.users uid - amt),
            wallet_transactions := s.wallet_transactions ++
              [⟨uid, ttype, amt, findBal s.users uid - amt, descr, ref⟩] } by
        simp [applyWalletOp, deduct_from_wallet, hlt]]
      exact ledgerInv_write s uid _ _ rfl rfl h
  | pay aid buyer =>
    cases hau : findAuction s aid with
    | none =>
      rw [show applyWalletOp s (.pay aid buyer) = s by
        simp [applyWalletOp, process_wallet_payment, hau]]
      exact h
    | some au =>
      by_cases hw : au.winner_id = some buyer
      · by_cases hlt : findBal s.users buyer <
            pyOrOpt au.sold_price au.current_bid
        · rw [show applyWalletOp s (.pay aid buyer) = s by
            simp [applyWalletOp, process_wallet_payment, hau, hw, hlt]]
          exact h
        · have hB : LedgerInv { s with
              users := setBal s.users buyer (findBal s.users buyer -
                pyOrOpt au.sold_price au.current_bid),
              wallet_transactions := s.wallet_transactions ++
                [⟨buyer, "payment_made", pyOrOpt au.sold_price au.current_bid,
                  findBal s.users buyer - pyOrOpt au.sold_price au.current_bid,
                  paymentMadeDescr au.title, some aid⟩] } :=
            ledgerInv_write s buyer _ _ rfl rfl h
          have hS := ledgerInv_write _ au.seller_id
            (findBal (setBal s.users buyer (findBal s.users buyer -
                pyOrOpt au.sold_price au.current_bid)) au.seller_id +
              pyOrOpt au.sold_price au.current_bid)
            ⟨au.seller_id, "payment_received",
              pyOrOpt au.sold_price au.current_bid,
              findBal (setBal s.users buyer (findBal s.users buyer -
                  pyOrOpt au.sold_price au.current_bid)) au.seller_id +
                pyOrOpt au.sold_price au.current_bid,
              paymentReceivedDescr au.title, some aid⟩ rfl rfl hB
          refine ledgerInv_congr _ _ ?_ ?_ hS
          · simp [applyWalletOp, process_wallet_payment, hau, hw, hlt,
              updateAuctionRows, create_notification]
          · simp [applyWalletOp, process_wallet_payment, hau, hw, hlt,
              updateAuctionRows, create_notification]
      · rw [show applyWalletOp s (.pay aid buyer) = s by
          simp [applyWalletOp, process_wallet_payment, hau, hw]]
        exact h

/-- **C6.** For every starting state satisfying the ledger reconciliation
invariant and every sequence of committed wallet operations
(`add_to_wallet`, `deduct_from_wallet`, `process_wallet_payment`), the
invariant still holds afterwards: each appended `wallet_transactions` row
records as `balance_after` exactly the user's wallet balance immediately
after that write, so each user's most recent ledger row always reconciles
with the live balance. -/
theorem wallet_ledger_reconciliation (s : DBState) (ops : List WalletOp)
    (h : LedgerInv s) : LedgerInv (ops.foldl applyWalletOp s) := by
  induction ops generalizing s with
  | nil => exact h
  | cons op ops ih => exact ih _ (applyWalletOp_preserves s op h)

/-- Witness for C6: from a fresh two-user state (empty ledger), a top-up, a
cash-out and a winning-auction wallet payment keep the invariant. -/
theorem wallet_ledger_reconciliation_witness :
    LedgerInv ([WalletOp.add 2 10000 "top_up" "topup" none,
      WalletOp.deduct 2 1000 "cash_out" "cashout" none,
      WalletOp.pay 1 2].foldl applyWalletOp
      ⟨[⟨2, 1000⟩, ⟨10, 0⟩],
        [⟨1, 10, "art", 1000, 8000, .sold, 0, some 2, some 8000, none⟩],
        [⟨1, 2, 8000⟩], [], []⟩) := by
  refine wallet_ledger_reconciliation _ _ ?_
  intro uid hmem t htr
  simp [lastTxn] at htr

end ArtAuction

namespace ArtAuction

/-! ## Claim C10: `sell_now` ignores auction status; `end_auction_immediately`
does not -/

/-- **C10.** For any auction id on which `get_highest_bid` finds a highest
bid (at least one bid whose bidder has a `users` row — the code's own
no-bids guard), `sell_now` succeeds without ever reading the auction's
status — even when the owner-matched row is not 'active' (e.g. already
'completed' or 'sold') — overwriting the matching row(s) to
`status = 'sold'`, `winner_id`/`sold_price` from that highest bid and
`end_time = now`, and notifying that bidder; on the very same state,
`end_auction_immediately` refuses the non-active auction and changes
nothing. -/
theorem sell_now_ignores_status (s : DBState) (now : Int)
    (auction_id seller_id : Nat) (b : Bid) (au : Auction)
    (hb : get_highest_bid s auction_id = some b)
    (hau : s.auctions.find? (fun a =>
      a.auction_id == auction_id && a.seller_id == seller_id) = some au)
    (hst : au.status ≠ AuctionStatus.active) :
    sell_now s now auction_id =
      ({ s with
          auctions := s.auctions.map (fun a =>
            if a.auction_id == auction_id then
              { a with
                status := .sold, sold_price := some b.bid_amount,
                winner_id := some b.bidder_id, end_time := now }
            else a),
          notifications := s.notifications ++
            [⟨b.bidder_id, sellNowMsg auction_id b.bid_amount, .won⟩] },
        .sold) ∧
    end_auction_immediately s now auction_id seller_id = (s, .notActive) := by
  constructor
  · simp [sell_now, hb, updateAuctionRows, create_notification]
  · simp [end_auction_immediately, hau, hst]

/-- Witness for C10: auction 1 is already 'sold' with one bid (bidder 2,
present in the `users` table, at $80.00); `sell_now` still succeeds and
rewrites the row, while `end_auction_immediately` by the owner (seller 10)
is refused as not active. -/
theorem sell_now_ignores_status_witness :
    sell_now ⟨[⟨2, 0⟩], [⟨1, 10, "art", 1000, 8000, .sold, 0, some 2,
        some 8000, none⟩], [⟨1, 2, 8000⟩], [], []⟩ 7 1 =
      (⟨[⟨2, 0⟩], [⟨1, 10, "art", 1000, 8000, .sold, 7, some 2, some 8000,
          none⟩],
        [⟨1, 2, 8000⟩], [⟨2, sellNowMsg 1 8000, .won⟩], []⟩, .sold) ∧
    end_auction_immediately ⟨[⟨2, 0⟩], [⟨1, 10, "art", 1000, 8000, .sold, 0,
        some 2, some 8000, none⟩], [⟨1, 2, 8000⟩], [], []⟩ 7 1 10 =
      (⟨[⟨2, 0⟩], [⟨1, 10, "art", 1000, 8000, .sold, 0, some 2, some 8000,
          none⟩],
        [⟨1, 2, 8000⟩], [], []⟩, .notActive) := by
  have h := sell_now_ignores_status
    ⟨[⟨2, 0⟩], [⟨1, 10, "art", 1000, 8000, .sold, 0, some 2, some 8000, none⟩],
      [⟨1, 2, 8000⟩], [], []⟩ 7 1 10 ⟨1, 2, 8000⟩
    ⟨1, 10, "art", 1000, 8000, .sold, 0, some 2, some 8000, none⟩
    (by decide) (by decide) (by decide)
  exact ⟨by rw [h.1]; decide, h.2⟩

end ArtAuction
